import Mathlib

/-!
Verification of the response-normalization and session-orchestration core of the
inventory chatbot (src/llm_client.py and src/server.py), as a shallow embedding
over `List Char`.  Strings are modelled as `List Char`; the external backend call
is modelled as an input (`BackendOutcome`), since its behavior is not part of the
program under verification.  Wall-clock latency (`latency_ms`) is real time and is
not modelled; no claim refers to it.
-/

namespace InvChat

/-- Status literal of the result dict: the code only ever produces the strings
ok and error (src/llm_client.py lines 172, 199, 209, 221). -/
inductive Status where
  | ok
  | error
deriving DecidableEq, Repr

/-- Token usage dict (src/llm_client.py lines 141-145, models.py TokenUsage). -/
structure TokenUsage where
  prompt_tokens : Nat
  completion_tokens : Nat
  total_tokens : Nat
deriving DecidableEq, Repr

/-- JSON values as produced by the Python json module: objects keep their
members in parse order (duplicate keys are resolved last-wins at lookup,
mirroring dict construction).  Numbers keep their source lexeme; Python converts
them to int/float, a distinction no part of the program under proof inspects. -/
inductive Jval where
  | jnull
  | jbool (b : Bool)
  | jnum (lex : List Char)
  | jstr (s : List Char)
  | jarr (xs : List Jval)
  | jobj (kvs : List (List Char × Jval))
deriving Repr

/-- The dict returned by LLMClient.chat (src/llm_client.py lines 165-223).
`natural_language_answer` and `sql_query` hold whatever Python object
`parsed.get` produced, hence `Jval`; the non-strict paths store plain strings,
embedded as `Jval.jstr`.  `latency_ms` is omitted (wall-clock time). -/
structure ChatResult where
  natural_language_answer : Jval
  sql_query : Jval
  token_usage : TokenUsage
  provider : List Char
  model : List Char
  status : Status
  error_message : Option (List Char)

/-- Outcome of the backend invocation inside the try block: either the call
raised before a reply was obtained (modelling the generic exception handler at
src/llm_client.py line 212 for transport failures, carrying str(e)), or a reply
text plus the token usage computed at lines 141-145. -/
inductive BackendOutcome where
  | failure (msg : List Char)
  | reply (content : List Char) (usage : TokenUsage)

/-! ## Python string helpers -/

/-- Whitespace for Python str.strip() (ASCII part of str.isspace). -/
def isStripWs (c : Char) : Bool :=
  c == ' ' || c == '\t' || c == '\n' || c == Char.ofNat 13 || c == Char.ofNat 11 ||
  c == Char.ofNat 12 || c == Char.ofNat 28 || c == Char.ofNat 29 ||
  c == Char.ofNat 30 || c == Char.ofNat 31 || c == Char.ofNat 133 || c == Char.ofNat 160

/-- Python str.strip(): drop whitespace from both ends. -/
def pyStrip (l : List Char) : List Char :=
  ((l.dropWhile isStripWs).reverse.dropWhile isStripWs).reverse

/-- The backtick character (0x60). -/
def btChar : Char := Char.ofNat 96

/-- Python s.startswith applied to a triple-backtick fence. -/
def startsBT (l : List Char) : Bool :=
  match l with
  | a :: b :: c :: _ => a == btChar && b == btChar && c == btChar
  | _ => false

/-- Python s.split applied with separator newline: always returns at least one
(possibly empty) line. -/
def splitLines : List Char → List (List Char)
  | [] => [[]]
  | c :: cs =>
    if c = '\n' then [] :: splitLines cs
    else
      match splitLines cs with
      | [] => [[c]]
      | l :: ls => (c :: l) :: ls

/-- Python newline-join of a list of lines. -/
def joinLines : List (List Char) → List Char
  | [] => []
  | [l] => l
  | l :: ls => l ++ '\n' :: joinLines ls

/-- Markdown fence removal (src/llm_client.py lines 151-158): if the text starts
with a triple backtick, drop the first line, and also the last line when that
line (stripped) starts with a triple backtick. -/
def dropFenceLines (ls : List (List Char)) : List (List Char) :=
  if startsBT (pyStrip (ls.getLastD [])) then (ls.drop 1).dropLast else ls.drop 1

def stripFence (cs : List Char) : List Char :=
  if startsBT cs then joinLines (dropFenceLines (splitLines cs))
  else cs

/-! ## _clean_json_string (src/llm_client.py lines 80-110) -/

/-- The control characters removed by the re.sub at line 84:
x00-x08, x0b, x0c, x0e-x1f, x7f (newline, tab and carriage return survive). -/
def isCtl (c : Char) : Bool :=
  c.toNat ≤ 0x08 || c.toNat == 0x0b || c.toNat == 0x0c ||
  (0x0e ≤ c.toNat && c.toNat ≤ 0x1f) || c.toNat == 0x7f

/-- The character-by-character scan of lines 87-110: tracks whether the cursor
is inside a quoted string (a quote after a backslash does not toggle the state)
and escapes literal newlines and tabs met inside a string. -/
def cleanScan (ins esc : Bool) : List Char → List Char
  | [] => []
  | c :: cs =>
    if esc then c :: cleanScan ins false cs
    else if c = '\\' then c :: cleanScan ins true cs
    else if c = '"' then c :: cleanScan (!ins) false cs
    else if ins ∧ c = '\n' then '\\' :: 'n' :: cleanScan ins false cs
    else if ins ∧ c = '\t' then '\\' :: 't' :: cleanScan ins false cs
    else c :: cleanScan ins esc cs

/-- LLMClient._clean_json_string: control-character strip, then the scan. -/
def cleanJsonString (s : List Char) : List Char :=
  cleanScan false false (s.filter (fun c => !isCtl c))

/-! ## json.loads (strict mode, as invoked at src/llm_client.py line 163) -/

/-- Whitespace skipped between JSON tokens (the json module set). -/
def isJsonWs (c : Char) : Bool :=
  c == ' ' || c == '\t' || c == '\n' || c == Char.ofNat 13

def skipWs (cs : List Char) : List Char := cs.dropWhile isJsonWs

def isHexDig (c : Char) : Bool :=
  ('0' ≤ c && c ≤ '9') || ('a' ≤ c && c ≤ 'f') || ('A' ≤ c && c ≤ 'F')

def hexVal (c : Char) : Nat :=
  if '0' ≤ c ∧ c ≤ '9' then c.toNat - 48
  else if 'a' ≤ c ∧ c ≤ 'f' then c.toNat - 87
  else c.toNat - 55

/-- Decode one escape sequence (the input starts right after the backslash):
returns the decoded character and how many characters were consumed.  Surrogate
pairs in uXXXX escapes are combined.  (A lone surrogate is kept by Python
inside its str; Lean chars are scalar values, so `Char.ofNat` maps that corner
to NUL - no claim touches it.) -/
def decodeEsc : List Char → Option (Char × Nat)
  | [] => none
  | e :: r2 =>
    if e = '"' then some ('"', 1)
    else if e = '\\' then some ('\\', 1)
    else if e = '/' then some ('/', 1)
    else if e = 'b' then some (Char.ofNat 8, 1)
    else if e = 'f' then some (Char.ofNat 12, 1)
    else if e = 'n' then some ('\n', 1)
    else if e = 'r' then some (Char.ofNat 13, 1)
    else if e = 't' then some ('\t', 1)
    else if e = 'u' then
      match r2 with
      | h1 :: h2 :: h3 :: h4 :: r3 =>
        if isHexDig h1 && isHexDig h2 && isHexDig h3 && isHexDig h4 then
          let code := ((hexVal h1 * 16 + hexVal h2) * 16 + hexVal h3) * 16 + hexVal h4
          if 0xD800 ≤ code ∧ code ≤ 0xDBFF then
            match r3 with
            | '\\' :: 'u' :: g1 :: g2 :: g3 :: g4 :: _ =>
              if isHexDig g1 && isHexDig g2 && isHexDig g3 && isHexDig g4 then
                let code2 := ((hexVal g1 * 16 + hexVal g2) * 16 + hexVal g3) * 16 + hexVal g4
                if 0xDC00 ≤ code2 ∧ code2 ≤ 0xDFFF then
                  some (Char.ofNat (0x10000 + (code - 0xD800) * 0x400 + (code2 - 0xDC00)), 11)
                else some (Char.ofNat code, 5)
              else some (Char.ofNat code, 5)
            | _ => some (Char.ofNat code, 5)
          else some (Char.ofNat code, 5)
        else none
      | _ => none
    else none

/-- JSON string body scanner, strict mode: raw control characters below 0x20
are rejected, escapes are decoded via `decodeEsc`.  The fuel argument only
bounds recursion (every step consumes at least one character, so length + 1
never runs out first); callers pass the remaining input length plus one. -/
def parseStringBody : Nat → List Char → Option (List Char × List Char)
  | 0, _ => none
  | _ + 1, [] => none
  | fuel + 1, c :: r =>
    if c = '"' then some ([], r)
    else if c = '\\' then
      match decodeEsc r with
      | some (ch, n) => (parseStringBody fuel (r.drop n)).map (fun p => (ch :: p.1, p.2))
      | none => none
    else if c.toNat < 0x20 then none
    else (parseStringBody fuel r).map (fun p => (c :: p.1, p.2))
termination_by structural fuel => fuel

/-- JSON number lexeme: optional fraction part, taken only when a digit follows
the dot (otherwise the number ends before the dot, as with the json regex). -/
def numFrac (rest : List Char) : List Char × List Char :=
  match rest with
  | '.' :: r =>
    let ds := r.takeWhile Char.isDigit
    if ds.isEmpty then ([], rest) else ('.' :: ds, r.drop ds.length)
  | _ => ([], rest)

/-- JSON number lexeme: optional exponent part. -/
def numExp (rest : List Char) : List Char × List Char :=
  match rest with
  | e :: r =>
    if e = 'e' ∨ e = 'E' then
      let (sgn, r1) :=
        match r with
        | s :: r2 => if s = '+' ∨ s = '-' then ([s], r2) else (([] : List Char), r)
        | [] => ([], r)
      let ds := r1.takeWhile Char.isDigit
      if ds.isEmpty then ([], rest) else (e :: (sgn ++ ds), r1.drop ds.length)
    else ([], rest)
  | [] => ([], rest)

/-- JSON number per the json module grammar: -?(0|[1-9][0-9]*)(.[0-9]+)?([eE][+-]?[0-9]+)? ;
returns the lexeme and the remaining input. -/
def parseNumber (cs : List Char) : Option (List Char × List Char) :=
  let (sign, cs1) :=
    match cs with
    | '-' :: r => ((['-'] : List Char), r)
    | _ => ([], cs)
  match cs1 with
  | c :: r =>
    if c = '0' then
      let (fr, r2) := numFrac r
      let (ex, r3) := numExp r2
      some (sign ++ '0' :: (fr ++ ex), r3)
    else if c.isDigit then
      let ds := r.takeWhile Char.isDigit
      let r1 := r.drop ds.length
      let (fr, r2) := numFrac r1
      let (ex, r3) := numExp r2
      some (sign ++ c :: (ds ++ fr ++ ex), r3)
    else none
  | [] => none

mutual

/-- One JSON value, scanner style: the input is assumed to start at a non-space
position; fuel bounds the recursion depth and is set to length+1 at top level,
which never exhausts first since every nested level consumes input. -/
def parseValue : Nat → List Char → Option (Jval × List Char)
  | 0, _ => none
  | fuel + 1, cs =>
    match cs with
    | '"' :: r =>
      match parseStringBody (r.length + 1) r with
      | some (s, r2) => some (.jstr s, r2)
      | none => none
    | '{' :: r =>
      (match skipWs r with
       | '}' :: r2 => some (.jobj [], r2)
       | cs2 => parseMembers fuel cs2 [])
    | '[' :: r =>
      (match skipWs r with
       | ']' :: r2 => some (.jarr [], r2)
       | cs2 => parseItems fuel cs2 [])
    | 'n' :: 'u' :: 'l' :: 'l' :: r => some (.jnull, r)
    | 't' :: 'r' :: 'u' :: 'e' :: r => some (.jbool true, r)
    | 'f' :: 'a' :: 'l' :: 's' :: 'e' :: r => some (.jbool false, r)
    | 'N' :: 'a' :: 'N' :: r => some (.jnum ['N', 'a', 'N'], r)
    | 'I' :: 'n' :: 'f' :: 'i' :: 'n' :: 'i' :: 't' :: 'y' :: r =>
      some (.jnum ['I', 'n', 'f'], r)
    | '-' :: 'I' :: 'n' :: 'f' :: 'i' :: 'n' :: 'i' :: 't' :: 'y' :: r =>
      some (.jnum ['-', 'I', 'n', 'f'], r)
    | _ =>
      match parseNumber cs with
      | some (lex, r) => some (.jnum lex, r)
      | none => none
termination_by structural fuel => fuel

/-- Object members after the opening brace (first member position, whitespace
already skipped): key string, colon, value, then comma or closing brace. -/
def parseMembers : Nat → List Char → List (List Char × Jval) → Option (Jval × List Char)
  | 0, _, _ => none
  | fuel + 1, cs, acc =>
    match cs with
    | '"' :: r =>
      (match parseStringBody (r.length + 1) r with
       | some (key, r2) =>
         (match skipWs r2 with
          | ':' :: r3 =>
            (match parseValue fuel (skipWs r3) with
             | some (v, r4) =>
               (match skipWs r4 with
                | ',' :: r5 => parseMembers fuel (skipWs r5) (acc ++ [(key, v)])
                | '}' :: r5 => some (.jobj (acc ++ [(key, v)]), r5)
                | _ => none)
             | none => none)
          | _ => none)
       | none => none)
    | _ => none
termination_by structural fuel => fuel

/-- Array items after the opening bracket (first item position, whitespace
already skipped). -/
def parseItems : Nat → List Char → List Jval → Option (Jval × List Char)
  | 0, _, _ => none
  | fuel + 1, cs, acc =>
    match parseValue fuel cs with
    | some (v, r) =>
      (match skipWs r with
       | ',' :: r2 => parseItems fuel (skipWs r2) (acc ++ [v])
       | ']' :: r2 => some (.jarr (acc ++ [v]), r2)
       | _ => none)
    | none => none
termination_by structural fuel => fuel

end

/-- json.loads: skip leading whitespace, scan one value, require only
whitespace after it. -/
def parseJson (cs : List Char) : Option Jval :=
  match parseValue (cs.length + 1) (skipWs cs) with
  | some (v, rest) => if skipWs rest = [] then some v else none
  | none => none

/-! ## Fallback regex extraction (src/llm_client.py lines 180-189)

The pattern is  "KEY"\s*:\s*"([^"]*(?:\\.[^"]*)*)"  searched leftmost with
re.DOTALL.  Because the inner character class  [^"]*  is greedy and also eats
backslashes, and a regex engine only backtracks on failure, the group always
ends at the first quote after the opening quote (the escaped-quote alternative
can never fire): the pattern is equivalent to  "KEY"\s*:\s*"([^"]*)"  and that
is what is embedded here.  A backslash before that quote stays in the group. -/

/-- Whitespace for the regex class backslash-s (ASCII part). -/
def isRegexWs (c : Char) : Bool :=
  c == ' ' || c == '\t' || c == '\n' || c == Char.ofNat 13 ||
  c == Char.ofNat 11 || c == Char.ofNat 12

/-- Try the full field pattern anchored at the head of `cs`. -/
def tryFieldAt (key cs : List Char) : Option (List Char) :=
  if ('"' :: (key ++ ['"'])).isPrefixOf cs then
    let rest := cs.drop (key.length + 2)
    match rest.dropWhile isRegexWs with
    | ':' :: r2 =>
      (match r2.dropWhile isRegexWs with
       | '"' :: r4 =>
         let g := r4.takeWhile (fun c => c ≠ '"')
         if r4.drop g.length ≠ [] then some g else none
       | _ => none)
    | _ => none
  else none

/-- re.search: try the pattern at each successive start position. -/
def extractField (key : List Char) : List Char → Option (List Char)
  | [] => none
  | c :: cs =>
    match tryFieldAt key (c :: cs) with
    | some g => some g
    | none => extractField key cs

def answerKey : List Char := ['a', 'n', 's', 'w', 'e', 'r']

def sqlKey : List Char := ['s', 'q', 'l', '_', 'q', 'u', 'e', 'r', 'y']

/-- One pass of Python str.replace with a two-character pattern `a` `b` and a
one-character replacement `r` (left to right, non-overlapping). -/
def replaceEsc (a b r : Char) : List Char → List Char
  | [] => []
  | [c] => [c]
  | c :: d :: cs =>
    if c = a ∧ d = b then r :: replaceEsc a b r cs
    else c :: replaceEsc a b r (d :: cs)

/-- The un-escaping applied to an extracted group (lines 185, 189):
.replace backslash-n with newline, then backslash-quote with quote. -/
def unescape (s : List Char) : List Char :=
  replaceEsc '\\' '"' '"' (replaceEsc '\\' 'n' '\n' s)

/-! ## LLMClient.chat normalization (src/llm_client.py lines 148-223) -/

/-- Python dict lookup with default, for a dict built from parse-ordered
members: the last occurrence of a duplicated key wins. -/
def lookupLast : List (List Char × Jval) → List Char → Option Jval
  | [], _ => none
  | (k, v) :: rest, key =>
    match lookupLast rest key with
    | some r => some r
    | none => if k = key then some v else none

def dictGet (kvs : List (List Char × Jval)) (key : List Char) (dflt : Jval) : Jval :=
  (lookupLast kvs key).getD dflt

/-- Python type name of a parsed JSON value, used in the AttributeError raised
by parsed.get on a non-dict (caught by the generic handler at line 212). -/
def pyTypeName : Jval → List Char
  | .jnull => ['N', 'o', 'n', 'e', 'T', 'y', 'p', 'e']
  | .jbool _ => ['b', 'o', 'o', 'l']
  | .jnum lex => if lex.any (fun c => c = '.' ∨ c = 'e' ∨ c = 'E' ∨ c = 'N' ∨ c = 'I' ∨ c = 'f')
                 then ['f', 'l', 'o', 'a', 't'] else ['i', 'n', 't']
  | .jstr _ => ['s', 't', 'r']
  | .jarr _ => ['l', 'i', 's', 't']
  | .jobj _ => ['d', 'i', 'c', 't']

/-- str(AttributeError) for parsed.get on a non-dict.  The CPython message text
is abstracted to the type name plus a fixed suffix; only its presence and
non-emptiness matter to the properties below. -/
def attrErrMsg (v : Jval) : List Char :=
  pyTypeName v ++ (" object has no attribute get").toList

/-- The f-string "JSON parse error: str(e)" of line 210.  The json module
detail text is abstracted; the constant part is from the source. -/
def jsonErrMsg : List Char := ("JSON parse error: invalid JSON").toList

/-- "Failed to parse response" (line 203, used when raw_content is empty). -/
def failedMsg : List Char := ("Failed to parse response").toList

/-- The local variable `answer` of the JSONDecodeError handler
(src/llm_client.py lines 177, 183-185): the extracted, un-escaped group, or
the empty string when the pattern does not match. -/
def fallbackAnswer (body : List Char) : List Char :=
  match extractField answerKey body with
  | some g => unescape g
  | none => []

/-- The local variable `sql_query` of the handler (lines 178, 187-189). -/
def fallbackSql (body : List Char) : List Char :=
  match extractField sqlKey body with
  | some g => unescape g
  | none => []

/-- The normalization prefix applied to the reply before json.loads
(lines 148-161): strip, fence removal, control-character cleaning.  Note the
variable `content` is reassigned to this cleaned text, so the except-branch
raw_content is this value as well. -/
def normContent (raw : List Char) : List Char :=
  cleanJsonString (stripFence (pyStrip raw))

/-- The result assembly on the parsed/unparsed cleaned text `body`:
strict-parse branch (lines 163-173), AttributeError from parsed.get on a
non-dict caught by the generic handler (lines 212-223), and the
json.JSONDecodeError branch with regex fallback (lines 174-211). -/
def replyCore (p m : List Char) (body : List Char) (u : TokenUsage) : ChatResult :=
  match parseJson body with
  | some (.jobj kvs) =>
    { natural_language_answer := dictGet kvs answerKey (.jstr [])
      sql_query := dictGet kvs sqlKey (.jstr [])
      token_usage := u
      provider := p, model := m
      status := .ok
      error_message := none }
  | some v =>
    { natural_language_answer := .jstr []
      sql_query := .jstr []
      token_usage := ⟨0, 0, 0⟩
      provider := p, model := m
      status := .error
      error_message := some (attrErrMsg v) }
  | none =>
    if fallbackAnswer body ≠ [] then
      { natural_language_answer := .jstr (fallbackAnswer body)
        sql_query := .jstr (fallbackSql body)
        token_usage := u
        provider := p, model := m
        status := .ok
        error_message := none }
    else
      { natural_language_answer := .jstr (if body = [] then failedMsg else body)
        sql_query := .jstr []
        token_usage := u
        provider := p, model := m
        status := .error
        error_message := some jsonErrMsg }

/-- LLMClient.chat on a reply: normalize the text, then assemble the result. -/
def replyResult (p m c : List Char) (u : TokenUsage) : ChatResult :=
  replyCore p m (normContent c) u

/-- LLMClient.chat (src/llm_client.py lines 112-223).  The prompt assembly
(system message, history, user message) only shapes the backend input and does
not influence the normalized result; the backend outcome is the input here.
A failure models any exception raised by the invocation itself (network,
auth, timeout, missing content), handled at lines 212-223. -/
def chatModel (p m : List Char) : BackendOutcome → ChatResult
  | .failure e =>
    { natural_language_answer := .jstr []
      sql_query := .jstr []
      token_usage := ⟨0, 0, 0⟩
      provider := p, model := m
      status := .error
      error_message := some e }
  | .reply c u => replyResult p m c u

/-! ## json.dumps for the synthesized assistant turn (src/server.py lines 231-237) -/

def hexDigChar (n : Nat) : Char :=
  if n < 10 then Char.ofNat (48 + n) else Char.ofNat (87 + n)

def hex4 (n : Nat) : List Char :=
  [hexDigChar (n / 4096 % 16), hexDigChar (n / 256 % 16), hexDigChar (n / 16 % 16),
   hexDigChar (n % 16)]

/-- json.dumps escaping of one string character with ensure_ascii (the
default): everything outside 0x20-0x7e is escaped. -/
def dumpChar (c : Char) : List Char :=
  if c = '"' then ['\\', '"']
  else if c = '\\' then ['\\', '\\']
  else if c = '\n' then ['\\', 'n']
  else if c = '\t' then ['\\', 't']
  else if c = Char.ofNat 13 then ['\\', 'r']
  else if c = Char.ofNat 8 then ['\\', 'b']
  else if c = Char.ofNat 12 then ['\\', 'f']
  else if 0x20 ≤ c.toNat ∧ c.toNat ≤ 0x7e then [c]
  else if c.toNat < 0x10000 then '\\' :: 'u' :: hex4 c.toNat
  else
    '\\' :: 'u' :: hex4 (0xD800 + (c.toNat - 0x10000) / 0x400) ++
      ('\\' :: 'u' :: hex4 (0xDC00 + (c.toNat - 0x10000) % 0x400))

def dumpStr (s : List Char) : List Char :=
  '"' :: (s.flatMap dumpChar ++ ['"'])

mutual

/-- json.dumps with default separators.  Parsed numbers would be re-serialized
by Python from their int/float value; the lexeme is kept here - no property
below depends on the text of a dumped number. -/
def dumpJval : Jval → List Char
  | .jnull => ['n', 'u', 'l', 'l']
  | .jbool true => ['t', 'r', 'u', 'e']
  | .jbool false => ['f', 'a', 'l', 's', 'e']
  | .jnum lex => lex
  | .jstr s => dumpStr s
  | .jarr xs => '[' :: (dumpList xs ++ [']'])
  | .jobj kvs => '{' :: (dumpPairs kvs ++ ['}'])

def dumpList : List Jval → List Char
  | [] => []
  | [x] => dumpJval x
  | x :: xs => dumpJval x ++ ',' :: ' ' :: dumpList xs

def dumpPairs : List (List Char × Jval) → List Char
  | [] => []
  | [(k, v)] => dumpStr k ++ ':' :: ' ' :: dumpJval v
  | (k, v) :: kvs => dumpStr k ++ ':' :: ' ' :: dumpJval v ++ ',' :: ' ' :: dumpPairs kvs

end

/-- json.dumps of the dict literal at src/server.py lines 233-236. -/
def dumpAnswerSql (r : ChatResult) : List Char :=
  dumpJval (.jobj [(answerKey, r.natural_language_answer), (sqlKey, r.sql_query)])

/-! ## Session store and RequestHandler._handle_chat (src/server.py) -/

/-- One conversation turn (spec data model; dict with role and content). -/
structure Turn where
  role : List Char
  content : List Char
deriving DecidableEq, Repr

def userRole : List Char := ['u', 's', 'e', 'r']

def assistantRole : List Char := ['a', 's', 's', 'i', 's', 't', 'a', 'n', 't']

/-- The module-level  sessions: dict[str, list[dict]]  (src/server.py line 19),
modelled as an insertion-ordered association list with unique keys, the key
order and first-match lookup mirroring dict semantics. -/
abbrev SessionStore := List (List Char × List Turn)

def dictLookup : SessionStore → List Char → Option (List Turn)
  | [], _ => none
  | (k, v) :: rest, key => if k = key then some v else dictLookup rest key

/-- dict item assignment: replace in place if the key exists, else append. -/
def dictSet : SessionStore → List Char → List Turn → SessionStore
  | [], k, v => [(k, v)]
  | (k0, v0) :: rest, k, v =>
    if k0 = k then (k, v) :: rest else (k0, v0) :: dictSet rest k v

/-- Python list slice l[-20:]. -/
def tail20 (l : List Turn) : List Turn := l.drop (l.length - 20)

/-- The two turns appended on a successful exchange
(src/server.py lines 230-237). -/
def newTurns (msg : List Char) (r : ChatResult) : List Turn :=
  [⟨userRole, msg⟩, ⟨assistantRole, dumpAnswerSql r⟩]

/-- RequestHandler._handle_chat, session part (src/server.py lines 217-239):
ensure an entry for the session id, read its history, call the client, and only
on ok status append the user and assistant turns and truncate to the last 20.
Request parsing/validation and the HTTP response are transport, out of scope;
the backend outcome is an input as in `chatModel`. -/
def handleChat (p m : List Char) (store : SessionStore) (sid msg : List Char)
    (outcome : BackendOutcome) : SessionStore × ChatResult :=
  let store1 := if (dictLookup store sid).isSome then store else store ++ [(sid, [])]
  let history := (dictLookup store1 sid).getD []
  let result := chatModel p m outcome
  if result.status = .ok then
    (dictSet store1 sid (tail20 (history ++ newTurns msg result)), result)
  else (store1, result)

/-! ## Test-harness inputs for the contract-shaped replies

These constructions are inputs fed to the embedded program, not part of it:
they build the well-formed contract replies the claims quantify over. -/

/-- A plain JSON-string character: printable (at or above 0x20), not the
closing quote, not a backslash, not DEL.  Such a character stands for itself
inside a JSON string literal. -/
def goodC (c : Char) : Prop :=
  0x20 ≤ c.toNat ∧ c ≠ '"' ∧ c ≠ '\\' ∧ c.toNat ≠ 0x7f

/-- A plain character, or a raw newline or tab (the characters the sanitizer
escapes inside string literals). -/
def goodNT (c : Char) : Prop := goodC c ∨ c = '\n' ∨ c = '\t'

instance (c : Char) : Decidable (goodC c) := by unfold goodC; infer_instance

instance (c : Char) : Decidable (goodNT c) := by unfold goodNT; infer_instance

/-- What the sanitizer scan turns one in-string character into. -/
def expandChar (c : Char) : List Char :=
  if c = '\n' then ['\\', 'n'] else if c = '\t' then ['\\', 't'] else [c]

def expand : List Char -> List Char
  | [] => []
  | c :: cs => expandChar c ++ expand cs

def litA : List Char := ['{', '"', 'a', 'n', 's', 'w', 'e', 'r', '"', ':', ' ', '"']

def litMid : List Char :=
  ['"', ',', ' ', '"', 's', 'q', 'l', '_', 'q', 'u', 'e', 'r', 'y', '"', ':', ' ', '"']

def litEnd : List Char := ['"', '}']

def litSqlPre : List Char :=
  ['{', '"', 's', 'q', 'l', '_', 'q', 'u', 'e', 'r', 'y', '"', ':', ' ', '"']

/-- The contract object with both keys and the given string values. -/
def renderBoth (a q : List Char) : List Char :=
  litA ++ (a ++ (litMid ++ (q ++ litEnd)))

/-- The contract object with only the answer key. -/
def renderAnswerOnly (a : List Char) : List Char := litA ++ (a ++ litEnd)

/-- The contract object with only the sql_query key. -/
def renderSqlOnly (q : List Char) : List Char := litSqlPre ++ (q ++ litEnd)

/-- A reply wrapped in a markdown fence with the json language tag on the first
line and a closing fence on the last line. -/
def wrapFence (r : List Char) : List Char :=
  btChar :: btChar :: btChar :: 'j' :: 's' :: 'o' :: 'n' :: '\n' ::
    (r ++ ('\n' :: btChar :: btChar :: btChar :: []))

/-! ## Store lemmas -/

lemma dictLookup_append {d : SessionStore} {k : List Char} {v : List Turn}
    (d2 : SessionStore) (h : dictLookup d k = some v) :
    dictLookup (d ++ d2) k = some v := by
  induction d with
  | nil => simp [dictLookup] at h
  | cons hd tl ih =>
    obtain ⟨k0, v0⟩ := hd
    by_cases hk : k0 = k
    · simpa [dictLookup, hk] using h
    · simp only [dictLookup, hk, if_false, List.cons_append] at h ⊢
      exact ih h

lemma dictLookup_set_self (d : SessionStore) (k : List Char) (v : List Turn) :
    dictLookup (dictSet d k v) k = some v := by
  induction d with
  | nil => simp [dictSet, dictLookup]
  | cons hd tl ih =>
    obtain ⟨k0, v0⟩ := hd
    by_cases hk : k0 = k
    · simp [dictSet, dictLookup, hk]
    · simp [dictSet, dictLookup, hk, ih]

lemma dictLookup_append_self {d : SessionStore} {k : List Char}
    (h : dictLookup d k = none) :
    dictLookup (d ++ [(k, [])]) k = some [] := by
  induction d with
  | nil => simp [dictLookup]
  | cons hd tl ih =>
    obtain ⟨k0, v0⟩ := hd
    by_cases hk : k0 = k
    · simp [dictLookup, hk] at h
    · simp only [dictLookup, hk, if_false, List.cons_append] at h ⊢
      exact ih h

/-- The history read by _handle_chat equals the stored history (empty when the
session id is new, matching the entry created at src/server.py line 218). -/
lemma history_of_ensure (store : SessionStore) (sid : List Char) :
    ((dictLookup (if (dictLookup store sid).isSome then store
                  else store ++ [(sid, [])]) sid).getD []) =
      (dictLookup store sid).getD [] := by
  by_cases hs : (dictLookup store sid).isSome
  · simp [hs]
  · have hn : dictLookup store sid = none := Option.not_isSome_iff_eq_none.mp hs
    simp [hs, hn, dictLookup_append_self hn]

/-! ## Result-shape helper -/

/-- Every reply normalization lands in one of the shapes produced by
LLMClient.chat: ok without an error message, or error with one. -/
lemma replyCore_ok_or_error (p m body : List Char) (u : TokenUsage) :
    ((replyCore p m body u).status = .ok ∧ (replyCore p m body u).error_message = none) ∨
    ((replyCore p m body u).status = .error ∧
      ∃ msg, (replyCore p m body u).error_message = some msg) := by
  unfold replyCore
  cases hp : parseJson body with
  | none =>
    by_cases ha : fallbackAnswer body ≠ []
    · left
      rw [if_pos ha]
      exact ⟨rfl, rfl⟩
    · right
      rw [if_neg ha]
      exact ⟨rfl, jsonErrMsg, rfl⟩
  | some v =>
    cases v with
    | jobj kvs => exact Or.inl ⟨rfl, rfl⟩
    | jnull => exact Or.inr ⟨rfl, _, rfl⟩
    | jbool b => exact Or.inr ⟨rfl, _, rfl⟩
    | jnum lex => exact Or.inr ⟨rfl, _, rfl⟩
    | jstr s => exact Or.inr ⟨rfl, _, rfl⟩
    | jarr xs => exact Or.inr ⟨rfl, _, rfl⟩

/-! ## Claims C1, C2 -/

/-- C1: when the normalized result has status error, _handle_chat leaves every
stored turn sequence exactly as it was: nothing is appended and nothing is
removed (src/server.py lines 229-239 guard all session writes on ok status;
the only other store effect is creating an empty entry for an unseen id). -/
theorem chat_error_preserves_sessions (p m : List Char) (store : SessionStore)
    (sid msg : List Char) (o : BackendOutcome)
    (herr : (chatModel p m o).status = .error)
    (k : List Char) (v : List Turn) (hk : dictLookup store k = some v) :
    dictLookup (handleChat p m store sid msg o).1 k = some v := by
  have hne : ¬ ((chatModel p m o).status = Status.ok) := by
    rw [herr]; exact fun h => Status.noConfusion h
  unfold handleChat
  simp only [hne, if_false]
  by_cases hs : (dictLookup store sid).isSome
  · simpa [hs] using hk
  · simp only [hs, if_false]
    exact dictLookup_append _ hk

/-- C1, witness. -/
theorem chat_error_preserves_sessions_witness :
    dictLookup (handleChat ['p'] ['m'] [(['s'], [])] ['s'] ['q']
      (.failure ['x'])).1 ['s'] = some [] :=
  chat_error_preserves_sessions ['p'] ['m'] [(['s'], [])] ['s'] ['q']
    (.failure ['x']) rfl ['s'] [] rfl

/-- C2: after a successful exchange the stored sequence for the session id is
a suffix of the pre-truncation sequence (history plus the two new turns, in
order) of length exactly min(length, 20): at most 20 turns are kept and the
oldest are evicted first. -/
theorem session_window_fifo (p m : List Char) (store : SessionStore)
    (sid msg : List Char) (o : BackendOutcome)
    (hok : (chatModel p m o).status = .ok) :
    ∃ dropped : List Turn,
      (dictLookup store sid).getD [] ++ newTurns msg (chatModel p m o) =
        dropped ++ (dictLookup (handleChat p m store sid msg o).1 sid).getD [] ∧
      ((dictLookup (handleChat p m store sid msg o).1 sid).getD []).length =
        min ((dictLookup store sid).getD [] ++ newTurns msg (chatModel p m o)).length 20 := by
  unfold handleChat
  simp only [hok, if_true]
  rw [dictLookup_set_self]
  rw [history_of_ensure]
  set pre := (dictLookup store sid).getD [] ++ newTurns msg (chatModel p m o) with hpre
  refine ⟨pre.take (pre.length - 20), ?_, ?_⟩
  · simp [tail20]
  · simp only [tail20, Option.getD_some, List.length_drop]
    omega

/-- C2, witness: a reply parsing to ok appends both turns on a fresh session. -/
theorem session_window_fifo_witness :
    ∃ dropped : List Turn,
      (dictLookup ([] : SessionStore) ['s']).getD [] ++
          newTurns ['q'] (chatModel ['p'] ['m']
            (.reply ['{', '"', 'a', 'n', 's', 'w', 'e', 'r', '"', ':', '"', 'A', '"', '}'] ⟨1, 2, 3⟩)) =
        dropped ++ (dictLookup (handleChat ['p'] ['m'] [] ['s'] ['q']
          (.reply ['{', '"', 'a', 'n', 's', 'w', 'e', 'r', '"', ':', '"', 'A', '"', '}'] ⟨1, 2, 3⟩)).1 ['s']).getD [] ∧
      ((dictLookup (handleChat ['p'] ['m'] [] ['s'] ['q']
          (.reply ['{', '"', 'a', 'n', 's', 'w', 'e', 'r', '"', ':', '"', 'A', '"', '}'] ⟨1, 2, 3⟩)).1 ['s']).getD []).length =
        min ((dictLookup ([] : SessionStore) ['s']).getD [] ++
          newTurns ['q'] (chatModel ['p'] ['m']
            (.reply ['{', '"', 'a', 'n', 's', 'w', 'e', 'r', '"', ':', '"', 'A', '"', '}'] ⟨1, 2, 3⟩))).length 20 :=
  session_window_fifo ['p'] ['m'] [] ['s'] ['q'] _ (by decide)

/-! ## Claims C9, C10 -/

/-- C9: the chat operation always returns a structured result.  A transport
failure (exception from the backend invocation) yields exactly the error
result with empty answer and sql fields, zero token usage and the underlying
message (src/llm_client.py lines 212-223); every received reply, however
malformed, is normalized to an ok result or to an error result carrying an
error message - decode failures are absorbed by the fallback stage, never
raised. -/
theorem chat_total_and_transport_shape (p m e c : List Char) (u : TokenUsage) :
    chatModel p m (.failure e) =
      ⟨.jstr [], .jstr [], ⟨0, 0, 0⟩, p, m, .error, some e⟩ ∧
    ((chatModel p m (.reply c u)).status = .ok ∨
     ((chatModel p m (.reply c u)).status = .error ∧
       (chatModel p m (.reply c u)).error_message.isSome)) := by
  refine ⟨rfl, ?_⟩
  have h := replyCore_ok_or_error p m (normContent c) u
  simp only [chatModel, replyResult] at h ⊢
  rcases h with ⟨h1, _⟩ | ⟨h1, msg, h2⟩
  · exact Or.inl h1
  · exact Or.inr ⟨h1, by rw [h2]; rfl⟩

/-- C10: a result has status ok exactly when its error_message is absent; every
error result carries a message and no ok result does (all seven return paths
of LLMClient.chat). -/
theorem status_ok_iff_no_error_message (p m : List Char) (o : BackendOutcome) :
    (chatModel p m o).status = .ok ↔ (chatModel p m o).error_message = none := by
  cases o with
  | failure e => simp [chatModel]
  | reply c u =>
    have h := replyCore_ok_or_error p m (normContent c) u
    simp only [chatModel, replyResult] at h ⊢
    rcases h with ⟨h1, h2⟩ | ⟨h1, msg, h2⟩
    · simp [h1, h2]
    · rw [h1, h2]; simp

/-! ## Claims C5, C6 -/

/-- C5, counterexample: a reply that fails strict parsing and carries a
recognizable quoted answer substring whose value is empty.  The fallback
extraction succeeds with the empty string, but the handler only treats the
exchange as ok for a truthy (non-empty) answer (src/llm_client.py line 191),
so the result is an error, contradicting the claim as stated. -/
theorem empty_extracted_answer_is_error :
    parseJson (normContent ['x', ' ', '{', '"', 'a', 'n', 's', 'w', 'e', 'r', '"',
        ':', ' ', '"', '"', '}']) = none ∧
    extractField answerKey (normContent ['x', ' ', '{', '"', 'a', 'n', 's', 'w', 'e', 'r', '"',
        ':', ' ', '"', '"', '}']) = some [] ∧
    (chatModel ['p'] ['m'] (.reply ['x', ' ', '{', '"', 'a', 'n', 's', 'w', 'e', 'r', '"',
        ':', ' ', '"', '"', '}'] ⟨1, 2, 3⟩)).status = Status.error :=
  ⟨rfl, rfl, rfl⟩

/-- C5, amended: for every reply that fails strict JSON parsing and from which
the regex fallback recovers a non-empty answer (after un-escaping), the result
is ok with that answer and with the analogously extracted sql value (empty
when absent). -/
theorem fallback_recovers_nonempty_answer (p m raw : List Char) (u : TokenUsage)
    (h1 : parseJson (normContent raw) = none)
    (h2 : fallbackAnswer (normContent raw) ≠ []) :
    chatModel p m (.reply raw u) =
      { natural_language_answer := .jstr (fallbackAnswer (normContent raw))
        sql_query := .jstr (fallbackSql (normContent raw))
        token_usage := u
        provider := p, model := m
        status := .ok
        error_message := none } := by
  simp only [chatModel, replyResult, replyCore, h1]
  rw [if_pos h2]

/-- C5, witness. -/
theorem fallback_recovers_nonempty_answer_witness :
    chatModel ['p'] ['m'] (.reply ['o', 'o', 'p', 's', ' ', '"', 'a', 'n', 's', 'w', 'e', 'r',
        '"', ':', ' ', '"', 'h', 'i', '"'] ⟨1, 2, 3⟩) =
      { natural_language_answer := .jstr (fallbackAnswer (normContent ['o', 'o', 'p', 's', ' ',
          '"', 'a', 'n', 's', 'w', 'e', 'r', '"', ':', ' ', '"', 'h', 'i', '"']))
        sql_query := .jstr (fallbackSql (normContent ['o', 'o', 'p', 's', ' ',
          '"', 'a', 'n', 's', 'w', 'e', 'r', '"', ':', ' ', '"', 'h', 'i', '"']))
        token_usage := ⟨1, 2, 3⟩
        provider := ['p'], model := ['m']
        status := .ok
        error_message := none } :=
  fallback_recovers_nonempty_answer ['p'] ['m'] _ ⟨1, 2, 3⟩ rfl (by decide)

/-- C6, counterexample: a reply containing a control character, with no
recoverable answer.  The code surfaces the sanitized text (the local variable
content was reassigned at src/llm_client.py line 161 before json.loads ran),
not the pre-sanitation text the claim requires: the control character is gone
from the surfaced answer. -/
theorem error_surfaces_sanitized_not_raw :
    parseJson (normContent ['b', 'a', 'd', ' ', Char.ofNat 1, ' ', 't', 'x', 't']) = none ∧
    extractField answerKey (normContent ['b', 'a', 'd', ' ', Char.ofNat 1, ' ', 't', 'x', 't']) = none ∧
    (chatModel ['p'] ['m'] (.reply ['b', 'a', 'd', ' ', Char.ofNat 1, ' ', 't', 'x', 't']
        ⟨1, 2, 3⟩)).status = Status.error ∧
    (chatModel ['p'] ['m'] (.reply ['b', 'a', 'd', ' ', Char.ofNat 1, ' ', 't', 'x', 't']
        ⟨1, 2, 3⟩)).natural_language_answer =
      .jstr (normContent ['b', 'a', 'd', ' ', Char.ofNat 1, ' ', 't', 'x', 't']) ∧
    normContent ['b', 'a', 'd', ' ', Char.ofNat 1, ' ', 't', 'x', 't'] ≠
      stripFence (pyStrip ['b', 'a', 'd', ' ', Char.ofNat 1, ' ', 't', 'x', 't']) :=
  ⟨rfl, rfl, rfl, rfl, by decide⟩

/-- C6, amended: when neither strict parsing nor fallback extraction recovers
a (non-empty) answer, the result has status error, an empty sql_query, a
non-empty errorMessage, and the post-sanitation text (not pre-sanitation) as
the answer - or the fixed failure string when that text is empty. -/
theorem total_failure_error_result (p m raw : List Char) (u : TokenUsage)
    (h1 : parseJson (normContent raw) = none)
    (h2 : fallbackAnswer (normContent raw) = []) :
    chatModel p m (.reply raw u) =
      { natural_language_answer := .jstr (if normContent raw = [] then failedMsg
                                          else normContent raw)
        sql_query := .jstr []
        token_usage := u
        provider := p, model := m
        status := .error
        error_message := some jsonErrMsg } ∧
    jsonErrMsg ≠ [] := by
  refine ⟨?_, by decide⟩
  simp only [chatModel, replyResult, replyCore, h1]
  rw [if_neg (by simp [h2])]

/-- C6, witness. -/
theorem total_failure_error_result_witness :
    chatModel ['p'] ['m'] (.reply ['g', 'a', 'r', 'b', 'a', 'g', 'e'] ⟨1, 2, 3⟩) =
      { natural_language_answer := .jstr (if normContent ['g', 'a', 'r', 'b', 'a', 'g', 'e'] = []
                                          then failedMsg
                                          else normContent ['g', 'a', 'r', 'b', 'a', 'g', 'e'])
        sql_query := .jstr []
        token_usage := ⟨1, 2, 3⟩
        provider := ['p'], model := ['m']
        status := .error
        error_message := some jsonErrMsg } ∧
    jsonErrMsg ≠ [] :=
  total_failure_error_result ['p'] ['m'] _ ⟨1, 2, 3⟩ rfl (by decide)

/-! ## Claim C8: fence wrapping -/

lemma splitLines_ne_nil (cs : List Char) : splitLines cs ≠ [] := by
  induction cs with
  | nil => simp [splitLines]
  | cons c cs ih =>
    by_cases hc : c = '\n'
    · simp [splitLines, hc]
    · simp only [splitLines, hc, if_false]
      cases h : splitLines cs <;> simp

lemma splitLines_no_nl {xs : List Char} (h : ∀ c ∈ xs, ¬ c = '\n') :
    splitLines xs = [xs] := by
  induction xs with
  | nil => rfl
  | cons c cs ih =>
    have hc : ¬ c = '\n' := h c (.head _)
    have hcs := ih (fun d hd => h d (.tail _ hd))
    simp [splitLines, hc, hcs]

lemma splitLines_append (A B : List Char) :
    splitLines (A ++ '\n' :: B) = splitLines A ++ splitLines B := by
  induction A with
  | nil => simp [splitLines]
  | cons c cs ih =>
    by_cases hc : c = '\n'
    · simp [splitLines, hc, ih]
    · simp only [List.cons_append, splitLines, hc, if_false, List.append_eq]
      rw [ih]
      rcases h : splitLines cs with _ | ⟨l, ls⟩
      · exact absurd h (splitLines_ne_nil cs)
      · simp

lemma joinLines_splitLines (cs : List Char) : joinLines (splitLines cs) = cs := by
  induction cs with
  | nil => rfl
  | cons c cs ih =>
    by_cases hc : c = '\n'
    · subst hc
      simp only [splitLines, if_pos rfl]
      rcases h : splitLines cs with _ | ⟨l, ls⟩
      · exact absurd h (splitLines_ne_nil cs)
      · rw [h] at ih
        simpa [joinLines] using ih
    · simp only [splitLines, hc, if_false]
      rcases h : splitLines cs with _ | ⟨l, ls⟩
      · exact absurd h (splitLines_ne_nil cs)
      · rw [h] at ih
        cases ls with
        | nil => simpa [joinLines] using ih
        | cons l2 ls2 =>
          simp only [joinLines] at ih ⊢
          rw [← ih]
          simp

lemma pyStrip_of_ends (x y : Char) (mid : List Char)
    (hx : isStripWs x = false) (hy : isStripWs y = false) :
    pyStrip (x :: (mid ++ [y])) = x :: (mid ++ [y]) := by
  unfold pyStrip
  rw [List.dropWhile_cons_of_neg (by simp [hx])]
  have hrev : (x :: (mid ++ [y])).reverse = y :: (mid.reverse ++ [x]) := by simp
  rw [hrev, List.dropWhile_cons_of_neg (by simp [hy]), ← hrev, List.reverse_reverse]

lemma pyStrip_wrapFence (r : List Char) : pyStrip (wrapFence r) = wrapFence r := by
  have hshape : wrapFence r =
      btChar :: ((btChar :: btChar :: 'j' :: 's' :: 'o' :: 'n' :: '\n' ::
        (r ++ ['\n', btChar, btChar])) ++ [btChar]) := by
    simp [wrapFence]
  rw [hshape, pyStrip_of_ends] <;> decide

lemma stripFence_wrapFence (r : List Char) : stripFence (wrapFence r) = r := by
  have hsplit : splitLines (wrapFence r) =
      [btChar, btChar, btChar, 'j', 's', 'o', 'n'] ::
        (splitLines r ++ [[btChar, btChar, btChar]]) := by
    have h1 : wrapFence r =
        [btChar, btChar, btChar, 'j', 's', 'o', 'n'] ++ '\n' ::
          (r ++ '\n' :: [btChar, btChar, btChar]) := by simp [wrapFence]
    rw [h1, splitLines_append, splitLines_append,
        @splitLines_no_nl [btChar, btChar, btChar, 'j', 's', 'o', 'n'] (by decide),
        @splitLines_no_nl [btChar, btChar, btChar] (by decide)]
    simp
  have hbt : startsBT (wrapFence r) = true := rfl
  have h0 : stripFence (wrapFence r) = joinLines (dropFenceLines (splitLines (wrapFence r))) := by
    unfold stripFence
    rw [hbt]
    rfl
  rw [h0, hsplit]
  have hlast : (([btChar, btChar, btChar, 'j', 's', 'o', 'n'] ::
      (splitLines r ++ [[btChar, btChar, btChar]])).getLastD []) =
      [btChar, btChar, btChar] := by
    rw [List.getLastD_eq_getLast?]
    rw [show ([btChar, btChar, btChar, 'j', 's', 'o', 'n'] ::
      (splitLines r ++ [[btChar, btChar, btChar]])).getLast? =
        some [btChar, btChar, btChar] from
          List.getLast?_concat ([btChar, btChar, btChar, 'j', 's', 'o', 'n'] :: splitLines r)]
    rfl
  unfold dropFenceLines
  rw [hlast, if_pos (by decide)]
  simp only [List.drop_one, List.tail_cons, List.dropLast_concat]
  exact joinLines_splitLines r

/-- The whole normalization prefix is unchanged by fence wrapping, for a body
that is already stripped and does not itself start with a fence. -/
lemma normContent_wrapFence (r : List Char) (h1 : pyStrip r = r)
    (h2 : startsBT r = false) : normContent (wrapFence r) = normContent r := by
  unfold normContent
  rw [pyStrip_wrapFence, stripFence_wrapFence, h1]
  unfold stripFence
  rw [h2]
  simp

/-- C8, counterexample: the claim quantifies over every reply body, but a body
whose first line itself starts with a fence normalizes differently wrapped and
unwrapped (wrapped, the inner fence line survives and is surfaced; unwrapped,
the fence logic empties the text and the fixed failure message is surfaced). -/
theorem fence_wrap_not_identical :
    chatModel ['p'] ['m'] (.reply (wrapFence [btChar, btChar, btChar, 'x']) ⟨1, 2, 3⟩) ≠
      chatModel ['p'] ['m'] (.reply [btChar, btChar, btChar, 'x'] ⟨1, 2, 3⟩) := by
  intro h
  have h2 := congrArg ChatResult.natural_language_answer h
  have h3 := Jval.jstr.inj h2
  exact absurd h3 (by decide)

/-- C8, amended: for a reply body that carries no outer whitespace and does not
itself start with a triple backtick, wrapping it in a json-tagged markdown
fence does not change the normalized result: the fence stripping removes
exactly the added first and last lines and the rest of the pipeline sees the
same text. -/
theorem fence_wrap_normalizes_identically (p m r : List Char) (u : TokenUsage)
    (h1 : pyStrip r = r) (h2 : startsBT r = false) :
    chatModel p m (.reply (wrapFence r) u) = chatModel p m (.reply r u) := by
  simp only [chatModel, replyResult]
  rw [normContent_wrapFence r h1 h2]

/-- C8, witness. -/
theorem fence_wrap_normalizes_identically_witness :
    chatModel ['p'] ['m'] (.reply (wrapFence ['{', '"', 'a', 'n', 's', 'w', 'e', 'r', '"',
        ':', '"', 'A', '"', '}']) ⟨1, 2, 3⟩) =
      chatModel ['p'] ['m'] (.reply ['{', '"', 'a', 'n', 's', 'w', 'e', 'r', '"',
        ':', '"', 'A', '"', '}'] ⟨1, 2, 3⟩) :=
  fence_wrap_normalizes_identically ['p'] ['m'] _ ⟨1, 2, 3⟩ (by decide) (by decide)

/-! ## Claims C3, C4: strict-parse success on contract replies -/

lemma keep_of_goodNT {c : Char} (h : goodNT c) : (!isCtl c) = true := by
  rcases h with ⟨h32, _, _, h7f⟩ | rfl | rfl
  · have : isCtl c = false := by
      unfold isCtl
      simp only [Bool.or_eq_false_iff, Bool.and_eq_false_iff, beq_eq_false_iff_ne, ne_eq,
        decide_eq_false_iff_not, not_le]
      omega
    simp [this]
  · decide
  · decide

lemma keep_append {x y : List Char} (hx : ∀ c ∈ x, (!isCtl c) = true)
    (hy : ∀ c ∈ y, (!isCtl c) = true) : ∀ c ∈ x ++ y, (!isCtl c) = true := by
  intro c hc
  rcases List.mem_append.mp hc with h | h
  · exact hx c h
  · exact hy c h

lemma keep_of_goodList {l : List Char} (h : ∀ c ∈ l, goodNT c) :
    ∀ c ∈ l, (!isCtl c) = true :=
  fun c hc => keep_of_goodNT (h c hc)

lemma cleanScan_step_plain (ins : Bool) (c : Char) (cs : List Char)
    (hb : ¬ c = '\\') (hq : ¬ c = '"') (hn : ¬ c = '\n') (ht : ¬ c = '\t') :
    cleanScan ins false (c :: cs) = c :: cleanScan ins false cs := by
  simp only [cleanScan]
  rw [if_neg (by simp), if_neg hb, if_neg hq,
      if_neg (fun h => hn h.2), if_neg (fun h => ht h.2)]

lemma scan_good (a : List Char) (rest : List Char) (h : ∀ c ∈ a, goodNT c) :
    cleanScan true false (a ++ rest) = expand a ++ cleanScan true false rest := by
  induction a with
  | nil => rfl
  | cons c a ih =>
    have hc := h c (List.mem_cons_self c a)
    have iha := ih (fun d hd => h d (List.mem_cons_of_mem c hd))
    rcases hc with ⟨h32, hq, hb, _⟩ | hc | hc
    · have hn : ¬ c = '\n' := by intro hh; subst hh; exact absurd h32 (by decide)
      have ht : ¬ c = '\t' := by intro hh; subst hh; exact absurd h32 (by decide)
      calc cleanScan true false ((c :: a) ++ rest)
          = c :: cleanScan true false (a ++ rest) := cleanScan_step_plain true c _ hb hq hn ht
        _ = c :: (expand a ++ cleanScan true false rest) := by rw [iha]
        _ = expand (c :: a) ++ cleanScan true false rest := by
            simp [expand, expandChar, if_neg hn, if_neg ht]
    · subst hc
      calc cleanScan true false (('\n' :: a) ++ rest)
          = '\\' :: 'n' :: cleanScan true false (a ++ rest) := rfl
        _ = '\\' :: 'n' :: (expand a ++ cleanScan true false rest) := by rw [iha]
        _ = expand ('\n' :: a) ++ cleanScan true false rest := rfl
    · subst hc
      calc cleanScan true false (('\t' :: a) ++ rest)
          = '\\' :: 't' :: cleanScan true false (a ++ rest) := rfl
        _ = '\\' :: 't' :: (expand a ++ cleanScan true false rest) := by rw [iha]
        _ = expand ('\t' :: a) ++ cleanScan true false rest := rfl

lemma scan_litA (rest : List Char) :
    cleanScan false false (litA ++ rest) = litA ++ cleanScan true false rest := rfl

lemma scan_litSqlPre (rest : List Char) :
    cleanScan false false (litSqlPre ++ rest) = litSqlPre ++ cleanScan true false rest := rfl

lemma scan_litMid (rest : List Char) :
    cleanScan true false (litMid ++ rest) = litMid ++ cleanScan true false rest := rfl

lemma scan_litEnd : cleanScan true false litEnd = litEnd := rfl

lemma clean_renderBoth (a q : List Char) (ha : ∀ c ∈ a, goodNT c)
    (hq : ∀ c ∈ q, goodNT c) :
    cleanJsonString (renderBoth a q) = renderBoth (expand a) (expand q) := by
  unfold cleanJsonString renderBoth
  rw [List.filter_eq_self.mpr
    (keep_append (by decide)
      (keep_append (keep_of_goodList ha)
        (keep_append (by decide)
          (keep_append (keep_of_goodList hq) (by decide)))))]
  rw [scan_litA, scan_good a _ ha, scan_litMid, scan_good q _ hq, scan_litEnd]

lemma clean_renderAnswerOnly (a : List Char) (ha : ∀ c ∈ a, goodNT c) :
    cleanJsonString (renderAnswerOnly a) = renderAnswerOnly (expand a) := by
  unfold cleanJsonString renderAnswerOnly
  rw [List.filter_eq_self.mpr
    (keep_append (by decide) (keep_append (keep_of_goodList ha) (by decide)))]
  rw [scan_litA, scan_good a _ ha, scan_litEnd]

lemma clean_renderSqlOnly (q : List Char) (hq : ∀ c ∈ q, goodNT c) :
    cleanJsonString (renderSqlOnly q) = renderSqlOnly (expand q) := by
  unfold cleanJsonString renderSqlOnly
  rw [List.filter_eq_self.mpr
    (keep_append (by decide) (keep_append (keep_of_goodList hq) (by decide)))]
  rw [scan_litSqlPre, scan_good q _ hq, scan_litEnd]

/-- A whole sanitized value body parses back to the original characters:
plain characters stand for themselves, the escaped newline and tab decode to
the raw character. -/
lemma ps_good (a : List Char) : ∀ (f : Nat) (rest : List Char),
    (∀ c ∈ a, goodNT c) → (expand a).length < f →
    parseStringBody f (expand a ++ '"' :: rest) = some (a, rest) := by
  induction a with
  | nil =>
    intro f rest _ hf
    match f, hf with
    | f + 1, _ => rfl
  | cons c a ih =>
    intro f rest h hf
    have hc := h c (List.mem_cons_self c a)
    have ha := fun d hd => h d (List.mem_cons_of_mem c hd)
    rcases hc with ⟨h32, hq, hb, _⟩ | hc | hc
    · have hexp : expand (c :: a) = c :: expand a := by
        simp [expand, expandChar,
          if_neg (fun hh : c = '\n' => absurd h32 (by subst hh; decide)),
          if_neg (fun hh : c = '\t' => absurd h32 (by subst hh; decide))]
      rw [hexp] at hf ⊢
      match f, hf with
      | f + 1, hf =>
        simp only [parseStringBody, List.cons_append]
        rw [if_neg hq, if_neg hb, if_neg (by omega)]
        simp only [List.append_eq]
        rw [ih f rest ha (by simp at hf; omega)]
        rfl
    · subst hc
      have hexp : expand ('\n' :: a) = '\\' :: 'n' :: expand a := rfl
      rw [hexp] at hf ⊢
      match f, hf with
      | f + 1, hf =>
        have hstep : parseStringBody (f + 1) ('\\' :: 'n' :: (expand a ++ '"' :: rest)) =
            (parseStringBody f (expand a ++ '"' :: rest)).map
              (fun p => ('\n' :: p.1, p.2)) := rfl
        rw [List.cons_append, List.cons_append, hstep,
            ih f rest ha (by simp at hf; omega)]
        rfl
    · subst hc
      have hexp : expand ('\t' :: a) = '\\' :: 't' :: expand a := rfl
      rw [hexp] at hf ⊢
      match f, hf with
      | f + 1, hf =>
        have hstep : parseStringBody (f + 1) ('\\' :: 't' :: (expand a ++ '"' :: rest)) =
            (parseStringBody f (expand a ++ '"' :: rest)).map
              (fun p => ('\t' :: p.1, p.2)) := rfl
        rw [List.cons_append, List.cons_append, hstep,
            ih f rest ha (by simp at hf; omega)]
        rfl

/-! Scanner steps through the concrete skeleton of the contract object; each
equation holds by reduction, stopping at the symbolic value bodies. -/

lemma pv_open (f : Nat) (X : List Char) :
    parseValue (f + 4) ('{' :: '"' :: X) = parseMembers (f + 3) ('"' :: X) [] := rfl

lemma pm_answer_key (f : Nat) (Y : List Char) (acc : List (List Char × Jval)) :
    parseMembers (f + 3)
        ('"' :: 'a' :: 'n' :: 's' :: 'w' :: 'e' :: 'r' :: '"' :: ':' :: ' ' :: '"' :: Y) acc =
      (match parseValue (f + 2) ('"' :: Y) with
       | some (v, r4) =>
         (match skipWs r4 with
          | ',' :: r5 => parseMembers (f + 2) (skipWs r5) (acc ++ [(answerKey, v)])
          | '}' :: r5 => some (.jobj (acc ++ [(answerKey, v)]), r5)
          | _ => none)
       | none => none) := rfl

lemma pm_sql_key (f : Nat) (Y : List Char) (acc : List (List Char × Jval)) :
    parseMembers (f + 2)
        ('"' :: 's' :: 'q' :: 'l' :: '_' :: 'q' :: 'u' :: 'e' :: 'r' :: 'y' :: '"' ::
          ':' :: ' ' :: '"' :: Y) acc =
      (match parseValue (f + 1) ('"' :: Y) with
       | some (v, r4) =>
         (match skipWs r4 with
          | ',' :: r5 => parseMembers (f + 1) (skipWs r5) (acc ++ [(sqlKey, v)])
          | '}' :: r5 => some (.jobj (acc ++ [(sqlKey, v)]), r5)
          | _ => none)
       | none => none) := rfl

lemma pm_sql_key3 (f : Nat) (Y : List Char) (acc : List (List Char × Jval)) :
    parseMembers (f + 3)
        ('"' :: 's' :: 'q' :: 'l' :: '_' :: 'q' :: 'u' :: 'e' :: 'r' :: 'y' :: '"' ::
          ':' :: ' ' :: '"' :: Y) acc =
      (match parseValue (f + 2) ('"' :: Y) with
       | some (v, r4) =>
         (match skipWs r4 with
          | ',' :: r5 => parseMembers (f + 2) (skipWs r5) (acc ++ [(sqlKey, v)])
          | '}' :: r5 => some (.jobj (acc ++ [(sqlKey, v)]), r5)
          | _ => none)
       | none => none) := rfl

lemma pv_str2 (f : Nat) (Y : List Char) :
    parseValue (f + 2) ('"' :: Y) =
      (match parseStringBody (Y.length + 1) Y with
       | some (s, r2) => some (Jval.jstr s, r2)
       | none => none) := rfl

lemma pv_str1 (f : Nat) (Y : List Char) :
    parseValue (f + 1) ('"' :: Y) =
      (match parseStringBody (Y.length + 1) Y with
       | some (s, r2) => some (Jval.jstr s, r2)
       | none => none) := rfl

lemma pv_renderBoth (f : Nat) (a q : List Char) (ha : ∀ c ∈ a, goodNT c)
    (hq : ∀ c ∈ q, goodNT c) :
    parseValue (f + 4) (renderBoth (expand a) (expand q)) =
      some (.jobj [(answerKey, .jstr a), (sqlKey, .jstr q)], []) := by
  have hform : renderBoth (expand a) (expand q) =
      '{' :: '"' :: 'a' :: 'n' :: 's' :: 'w' :: 'e' :: 'r' :: '"' :: ':' :: ' ' :: '"' ::
        (expand a ++ ('"' :: ',' :: ' ' :: '"' :: 's' :: 'q' :: 'l' :: '_' :: 'q' :: 'u' ::
          'e' :: 'r' :: 'y' :: '"' :: ':' :: ' ' :: '"' :: (expand q ++ ('"' :: '}' :: [])))) := by
    simp [renderBoth, litA, litMid, litEnd]
  rw [hform, pv_open, pm_answer_key, pv_str2]
  rw [ps_good a ((expand a ++ ('"' :: ',' :: ' ' :: '"' :: 's' :: 'q' :: 'l' :: '_' :: 'q' ::
        'u' :: 'e' :: 'r' :: 'y' :: '"' :: ':' :: ' ' :: '"' ::
        (expand q ++ ('"' :: '}' :: [])))).length + 1)
      (',' :: ' ' :: '"' :: 's' :: 'q' :: 'l' :: '_' :: 'q' :: 'u' :: 'e' :: 'r' :: 'y' ::
        '"' :: ':' :: ' ' :: '"' :: (expand q ++ ('"' :: '}' :: [])))
      ha (by simp [List.length_append]; omega)]
  show parseMembers (f + 2)
      ('"' :: 's' :: 'q' :: 'l' :: '_' :: 'q' :: 'u' :: 'e' :: 'r' :: 'y' :: '"' ::
        ':' :: ' ' :: '"' :: (expand q ++ ('"' :: '}' :: [])))
      ([] ++ [(answerKey, Jval.jstr a)]) = _
  rw [pm_sql_key, pv_str1]
  rw [ps_good q ((expand q ++ ('"' :: '}' :: [])).length + 1) ('}' :: [])
      hq (by simp [List.length_append]; omega)]
  rfl

lemma pv_renderAnswerOnly (f : Nat) (a : List Char) (ha : ∀ c ∈ a, goodNT c) :
    parseValue (f + 4) (renderAnswerOnly (expand a)) =
      some (.jobj [(answerKey, .jstr a)], []) := by
  have hform : renderAnswerOnly (expand a) =
      '{' :: '"' :: 'a' :: 'n' :: 's' :: 'w' :: 'e' :: 'r' :: '"' :: ':' :: ' ' :: '"' ::
        (expand a ++ ('"' :: '}' :: [])) := by
    simp [renderAnswerOnly, litA, litEnd]
  rw [hform, pv_open, pm_answer_key, pv_str2]
  rw [ps_good a ((expand a ++ ('"' :: '}' :: [])).length + 1) ('}' :: [])
      ha (by simp [List.length_append]; omega)]
  rfl

lemma pv_renderSqlOnly (f : Nat) (q : List Char) (hq : ∀ c ∈ q, goodNT c) :
    parseValue (f + 4) (renderSqlOnly (expand q)) =
      some (.jobj [(sqlKey, .jstr q)], []) := by
  have hform : renderSqlOnly (expand q) =
      '{' :: '"' :: 's' :: 'q' :: 'l' :: '_' :: 'q' :: 'u' :: 'e' :: 'r' :: 'y' :: '"' ::
        ':' :: ' ' :: '"' :: (expand q ++ ('"' :: '}' :: [])) := by
    simp [renderSqlOnly, litSqlPre, litEnd]
  rw [hform]
  rw [show parseValue (f + 4)
      ('{' :: '"' :: 's' :: 'q' :: 'l' :: '_' :: 'q' :: 'u' :: 'e' :: 'r' :: 'y' :: '"' ::
        ':' :: ' ' :: '"' :: (expand q ++ ('"' :: '}' :: []))) =
      parseMembers (f + 3) ('"' :: 's' :: 'q' :: 'l' :: '_' :: 'q' :: 'u' :: 'e' :: 'r' ::
        'y' :: '"' :: ':' :: ' ' :: '"' :: (expand q ++ ('"' :: '}' :: []))) [] from rfl]
  rw [pm_sql_key3, pv_str2]
  rw [ps_good q ((expand q ++ ('"' :: '}' :: [])).length + 1) ('}' :: [])
      hq (by simp [List.length_append]; omega)]
  rfl

lemma pj_renderBoth (a q : List Char) (ha : ∀ c ∈ a, goodNT c) (hq : ∀ c ∈ q, goodNT c) :
    parseJson (renderBoth (expand a) (expand q)) =
      some (.jobj [(answerKey, .jstr a), (sqlKey, .jstr q)]) := by
  unfold parseJson
  rw [show skipWs (renderBoth (expand a) (expand q)) = renderBoth (expand a) (expand q)
      from rfl]
  rw [show (renderBoth (expand a) (expand q)).length + 1 =
      ((renderBoth (expand a) (expand q)).length - 3) + 4 from by
    have h3 : 3 ≤ (renderBoth (expand a) (expand q)).length := by
      simp [renderBoth, litA, litMid, litEnd]
    omega]
  rw [pv_renderBoth _ a q ha hq]
  rfl

lemma pj_renderAnswerOnly (a : List Char) (ha : ∀ c ∈ a, goodNT c) :
    parseJson (renderAnswerOnly (expand a)) = some (.jobj [(answerKey, .jstr a)]) := by
  unfold parseJson
  rw [show skipWs (renderAnswerOnly (expand a)) = renderAnswerOnly (expand a) from rfl]
  rw [show (renderAnswerOnly (expand a)).length + 1 =
      ((renderAnswerOnly (expand a)).length - 3) + 4 from by
    have h3 : 3 ≤ (renderAnswerOnly (expand a)).length := by
      simp [renderAnswerOnly, litA, litEnd]
    omega]
  rw [pv_renderAnswerOnly _ a ha]
  rfl

lemma pj_renderSqlOnly (q : List Char) (hq : ∀ c ∈ q, goodNT c) :
    parseJson (renderSqlOnly (expand q)) = some (.jobj [(sqlKey, .jstr q)]) := by
  unfold parseJson
  rw [show skipWs (renderSqlOnly (expand q)) = renderSqlOnly (expand q) from rfl]
  rw [show (renderSqlOnly (expand q)).length + 1 =
      ((renderSqlOnly (expand q)).length - 3) + 4 from by
    have h3 : 3 ≤ (renderSqlOnly (expand q)).length := by
      simp [renderSqlOnly, litSqlPre, litEnd]
    omega]
  rw [pv_renderSqlOnly _ q hq]
  rfl

lemma stripFence_not_bt {cs : List Char} (h : startsBT cs = false) : stripFence cs = cs := by
  unfold stripFence
  rw [h]
  simp

lemma pyStrip_renderBoth (a q : List Char) : pyStrip (renderBoth a q) = renderBoth a q := by
  have hshape : renderBoth a q =
      '{' :: ((['"', 'a', 'n', 's', 'w', 'e', 'r', '"', ':', ' ', '"'] ++
        (a ++ (litMid ++ (q ++ ['"'])))) ++ ['}']) := by
    simp [renderBoth, litA, litMid, litEnd]
  rw [hshape]
  exact pyStrip_of_ends _ _ _ (by decide) (by decide)

lemma pyStrip_renderAnswerOnly (a : List Char) :
    pyStrip (renderAnswerOnly a) = renderAnswerOnly a := by
  have hshape : renderAnswerOnly a =
      '{' :: ((['"', 'a', 'n', 's', 'w', 'e', 'r', '"', ':', ' ', '"'] ++
        (a ++ ['"'])) ++ ['}']) := by
    simp [renderAnswerOnly, litA, litEnd]
  rw [hshape]
  exact pyStrip_of_ends _ _ _ (by decide) (by decide)

lemma pyStrip_renderSqlOnly (q : List Char) :
    pyStrip (renderSqlOnly q) = renderSqlOnly q := by
  have hshape : renderSqlOnly q =
      '{' :: ((['"', 's', 'q', 'l', '_', 'q', 'u', 'e', 'r', 'y', '"', ':', ' ', '"'] ++
        (q ++ ['"'])) ++ ['}']) := by
    simp [renderSqlOnly, litSqlPre, litEnd]
  rw [hshape]
  exact pyStrip_of_ends _ _ _ (by decide) (by decide)

lemma normContent_renderBoth (a q : List Char) (ha : ∀ c ∈ a, goodNT c)
    (hq : ∀ c ∈ q, goodNT c) :
    normContent (renderBoth a q) = renderBoth (expand a) (expand q) := by
  unfold normContent
  rw [pyStrip_renderBoth, stripFence_not_bt (show startsBT (renderBoth a q) = false from rfl),
      clean_renderBoth a q ha hq]

lemma normContent_renderAnswerOnly (a : List Char) (ha : ∀ c ∈ a, goodNT c) :
    normContent (renderAnswerOnly a) = renderAnswerOnly (expand a) := by
  unfold normContent
  rw [pyStrip_renderAnswerOnly,
      stripFence_not_bt (show startsBT (renderAnswerOnly a) = false from rfl),
      clean_renderAnswerOnly a ha]

lemma normContent_renderSqlOnly (q : List Char) (hq : ∀ c ∈ q, goodNT c) :
    normContent (renderSqlOnly q) = renderSqlOnly (expand q) := by
  unfold normContent
  rw [pyStrip_renderSqlOnly,
      stripFence_not_bt (show startsBT (renderSqlOnly q) = false from rfl),
      clean_renderSqlOnly q hq]

lemma chat_renderBoth (p m : List Char) (u : TokenUsage) (a q : List Char)
    (ha : ∀ c ∈ a, goodNT c) (hq : ∀ c ∈ q, goodNT c) :
    chatModel p m (.reply (renderBoth a q) u) =
      ⟨.jstr a, .jstr q, u, p, m, .ok, none⟩ := by
  simp only [chatModel, replyResult]
  rw [normContent_renderBoth a q ha hq]
  unfold replyCore
  rw [pj_renderBoth a q ha hq]
  rfl

lemma chat_renderAnswerOnly (p m : List Char) (u : TokenUsage) (a : List Char)
    (ha : ∀ c ∈ a, goodNT c) :
    chatModel p m (.reply (renderAnswerOnly a) u) =
      ⟨.jstr a, .jstr [], u, p, m, .ok, none⟩ := by
  simp only [chatModel, replyResult]
  rw [normContent_renderAnswerOnly a ha]
  unfold replyCore
  rw [pj_renderAnswerOnly a ha]
  rfl

lemma chat_renderSqlOnly (p m : List Char) (u : TokenUsage) (q : List Char)
    (hq : ∀ c ∈ q, goodNT c) :
    chatModel p m (.reply (renderSqlOnly q) u) =
      ⟨.jstr [], .jstr q, u, p, m, .ok, none⟩ := by
  simp only [chatModel, replyResult]
  rw [normContent_renderSqlOnly q hq]
  unfold replyCore
  rw [pj_renderSqlOnly q hq]
  rfl

/-- C3: a well-formed contract reply - a JSON object with plain string values
under the answer and sql_query keys, no fence - normalizes to status ok with
both values verbatim; a missing key defaults to the empty string. -/
theorem contract_reply_verbatim_ok (p m : List Char) (u : TokenUsage) (a q : List Char)
    (ha : ∀ c ∈ a, goodC c) (hq : ∀ c ∈ q, goodC c) :
    chatModel p m (.reply (renderBoth a q) u) =
      ⟨.jstr a, .jstr q, u, p, m, .ok, none⟩ ∧
    chatModel p m (.reply (renderAnswerOnly a) u) =
      ⟨.jstr a, .jstr [], u, p, m, .ok, none⟩ ∧
    chatModel p m (.reply (renderSqlOnly q) u) =
      ⟨.jstr [], .jstr q, u, p, m, .ok, none⟩ :=
  ⟨chat_renderBoth p m u a q (fun c hc => Or.inl (ha c hc)) (fun c hc => Or.inl (hq c hc)),
   chat_renderAnswerOnly p m u a (fun c hc => Or.inl (ha c hc)),
   chat_renderSqlOnly p m u q (fun c hc => Or.inl (hq c hc))⟩

/-- C3, witness: the example exchange of the spec. -/
theorem contract_reply_verbatim_ok_witness :
    chatModel ['p'] ['m'] (.reply (renderBoth
        ['Y', 'o', 'u', ' ', 'h', 'a', 'v', 'e', ' ', '4', '2', ' ', 'a', 's', 's', 'e',
         't', 's', '.']
        ['S', 'E', 'L', 'E', 'C', 'T', ' ', 'C', 'O', 'U', 'N', 'T', '(', '*', ')', ' ',
         'F', 'R', 'O', 'M', ' ', 'A', 's', 's', 'e', 't', 's']) ⟨1, 2, 3⟩) =
      ⟨.jstr ['Y', 'o', 'u', ' ', 'h', 'a', 'v', 'e', ' ', '4', '2', ' ', 'a', 's', 's',
         'e', 't', 's', '.'],
       .jstr ['S', 'E', 'L', 'E', 'C', 'T', ' ', 'C', 'O', 'U', 'N', 'T', '(', '*', ')',
         ' ', 'F', 'R', 'O', 'M', ' ', 'A', 's', 's', 'e', 't', 's'],
       ⟨1, 2, 3⟩, ['p'], ['m'], .ok, none⟩ ∧
    chatModel ['p'] ['m'] (.reply (renderAnswerOnly
        ['Y', 'o', 'u', ' ', 'h', 'a', 'v', 'e', ' ', '4', '2', ' ', 'a', 's', 's', 'e',
         't', 's', '.']) ⟨1, 2, 3⟩) =
      ⟨.jstr ['Y', 'o', 'u', ' ', 'h', 'a', 'v', 'e', ' ', '4', '2', ' ', 'a', 's', 's',
         'e', 't', 's', '.'],
       .jstr [], ⟨1, 2, 3⟩, ['p'], ['m'], .ok, none⟩ ∧
    chatModel ['p'] ['m'] (.reply (renderSqlOnly
        ['S', 'E', 'L', 'E', 'C', 'T', ' ', 'C', 'O', 'U', 'N', 'T', '(', '*', ')', ' ',
         'F', 'R', 'O', 'M', ' ', 'A', 's', 's', 'e', 't', 's']) ⟨1, 2, 3⟩) =
      ⟨.jstr [],
       .jstr ['S', 'E', 'L', 'E', 'C', 'T', ' ', 'C', 'O', 'U', 'N', 'T', '(', '*', ')',
         ' ', 'F', 'R', 'O', 'M', ' ', 'A', 's', 's', 'e', 't', 's'],
       ⟨1, 2, 3⟩, ['p'], ['m'], .ok, none⟩ :=
  contract_reply_verbatim_ok ['p'] ['m'] ⟨1, 2, 3⟩ _ _ (by decide) (by decide)

/-- C4: a contract reply whose answer value contains a raw newline still
normalizes to status ok with the newline preserved verbatim in the answer.
The second and third conjuncts isolate the sanitizer behavior the claim
describes: a newline outside a string literal is left alone, and after an
escaped quote the scan is still inside the string, so a following raw newline
is escaped. -/
theorem raw_newline_preserved (p m : List Char) (u : TokenUsage) (a1 a2 q : List Char)
    (h1 : ∀ c ∈ a1, goodNT c) (h2 : ∀ c ∈ a2, goodNT c) (hq : ∀ c ∈ q, goodNT c) :
    chatModel p m (.reply (renderBoth (a1 ++ '\n' :: a2) q) u) =
      ⟨.jstr (a1 ++ '\n' :: a2), .jstr q, u, p, m, .ok, none⟩ ∧
    cleanJsonString ['{', '"', 'a', '"', ':', '"', 'A', '"', ',', '\n', '"', 'b', '"',
        ':', '"', 'B', '"', '}'] =
      ['{', '"', 'a', '"', ':', '"', 'A', '"', ',', '\n', '"', 'b', '"', ':', '"', 'B',
        '"', '}'] ∧
    cleanJsonString ['{', '"', 'a', '"', ':', '"', 'x', '\\', '"', 'y', '\n', 'z', '"', '}'] =
      ['{', '"', 'a', '"', ':', '"', 'x', '\\', '"', 'y', '\\', 'n', 'z', '"', '}'] := by
  refine ⟨?_, by decide, by decide⟩
  refine chat_renderBoth p m u _ q ?_ hq
  intro c hc
  rcases List.mem_append.mp hc with h | h
  · exact h1 c h
  · rcases List.mem_cons.mp h with rfl | h
    · exact Or.inr (Or.inl rfl)
    · exact h2 c h

/-- C4, witness. -/
theorem raw_newline_preserved_witness :
    chatModel ['p'] ['m'] (.reply (renderBoth
        (['l', 'i', 'n', 'e', '1'] ++ '\n' :: ['l', 'i', 'n', 'e', '2']) ['S']) ⟨1, 2, 3⟩) =
      ⟨.jstr (['l', 'i', 'n', 'e', '1'] ++ '\n' :: ['l', 'i', 'n', 'e', '2']),
       .jstr ['S'], ⟨1, 2, 3⟩, ['p'], ['m'], .ok, none⟩ ∧
    cleanJsonString ['{', '"', 'a', '"', ':', '"', 'A', '"', ',', '\n', '"', 'b', '"',
        ':', '"', 'B', '"', '}'] =
      ['{', '"', 'a', '"', ':', '"', 'A', '"', ',', '\n', '"', 'b', '"', ':', '"', 'B',
        '"', '}'] ∧
    cleanJsonString ['{', '"', 'a', '"', ':', '"', 'x', '\\', '"', 'y', '\n', 'z', '"', '}'] =
      ['{', '"', 'a', '"', ':', '"', 'x', '\\', '"', 'y', '\\', 'n', 'z', '"', '}'] :=
  raw_newline_preserved ['p'] ['m'] ⟨1, 2, 3⟩ ['l', 'i', 'n', 'e', '1']
    ['l', 'i', 'n', 'e', '2'] ['S'] (by decide) (by decide) (by decide)

end InvChat
